import Mathlib

/-!
Shallow embedding of the in-memory SQL-like query engine (sqlQueryTool) and
the chart-data aggregator (visualizationTool) of the data-analysis toolkit.

Modelling conventions, used consistently below:
* Row values are the loosely-typed scalars of the data model (number,
  string, boolean, null); a missing object field (undefined) is Option.none.
* JavaScript numbers are modelled as exact rationals, so NaN and the
  infinities never occur as stored values; a failed numeric conversion
  (NaN) is modelled as Option.none at the point where it arises.
* JavaScript objects are ordered association lists; Map iteration order is
  first-insertion order, modelled by insert-at-end grouping lists.
* String searching and splitting is modelled over the character list of
  the string (the queries involved are ASCII).
-/

/-- A scalar cell value: number, string, boolean, or null. -/
inductive Value where
  | num (q : ℚ)
  | str (s : String)
  | boolV (b : Bool)
  | null
  deriving DecidableEq

/-- A row is a JavaScript object: an ordered association list from field
names to values.  Reading an absent field yields undefined (none). -/
abbrev Row := List (String × Value)

/-- row[col]: the first binding of the field, or undefined. -/
def rowGet (row : Row) (col : String) : Option Value :=
  (row.find? (fun p => p.1 = col)).map Prod.snd

/-- typeof val === 'number' && !isNaN(val); NaN is unrepresentable here, so
this is exactly the number-typed test. -/
def isNumberVal : Option Value → Bool
  | some (Value.num _) => true
  | _ => false

/-- JavaScript truthiness of a possibly-missing value: undefined, null,
false, 0 and the empty string are falsy. -/
def truthy : Option Value → Bool
  | none => false
  | some (Value.num q) => decide (q ≠ 0)
  | some (Value.str s) => decide (s ≠ "")
  | some (Value.boolV b) => b
  | some Value.null => false

/-- JavaScript character classes used by the regular expressions below:
whitespace (a representative ASCII subset of \s). -/
def isSpaceChar (c : Char) : Bool :=
  c = Char.ofNat 32 ∨ c = Char.ofNat 9 ∨ c = Char.ofNat 10 ∨
    c = Char.ofNat 13 ∨ c = Char.ofNat 12 ∨ c = Char.ofNat 11

/-- \w: ASCII letters, digits and underscore. -/
def isWordChar (c : Char) : Bool :=
  c.isAlphanum ∨ c = '_'

/-- Decimal digit run read as a natural number. -/
def digitsVal (ds : List Char) : ℕ :=
  ds.foldl (fun acc c => 10 * acc + (c.toNat - 48)) 0

/-- Model of JavaScript parseFloat on a character sequence: skip leading
whitespace, optional sign, then decimal digits with an optional fractional
part; a prefix with no digits is NaN (none).  Exponent notation and the
Infinity literal are not modelled; no input considered below uses them. -/
def parseFloatChars (cs0 : List Char) : Option ℚ :=
  let cs1 := cs0.dropWhile isSpaceChar
  let sgn : ℚ := match cs1 with
    | c :: _ => if c = '-' then -1 else 1
    | [] => 1
  let cs2 : List Char := match cs1 with
    | c :: rest => if c = '-' ∨ c = '+' then rest else cs1
    | [] => []
  let intPart := cs2.takeWhile Char.isDigit
  let afterInt := cs2.dropWhile Char.isDigit
  let fracPart : List Char := match afterInt with
    | c :: rest => if c = '.' then rest.takeWhile Char.isDigit else []
    | [] => []
  if intPart.isEmpty ∧ fracPart.isEmpty then none
  else some (sgn * ((digitsVal intPart : ℚ) + (digitsVal fracPart : ℚ) / (10 : ℚ) ^ fracPart.length))

/-- parseFloat applied to a possibly-missing loosely-typed value: a number
passes through (in this exact model its rendering reparses to itself);
strings are parsed; booleans, null and undefined stringify to unparseable
words and give NaN (none). -/
def parseFloatVal : Option Value → Option ℚ
  | some (Value.num q) => some q
  | some (Value.str s) => parseFloatChars s.data
  | _ => none

/-- JavaScript toString of a scalar.  Integral numbers render as in JS; a
non-integral rational is rendered num/den, a divergence from JS decimal
rendering on which no theorem below depends.  null's toString is never
reached (optional chaining short-circuits it at every call site). -/
def Value.toStr : Value → String
  | Value.num q => if q.den = 1 then toString q.num else toString q.num ++ "/" ++ toString q.den
  | Value.str s => s
  | Value.boolV b => if b then "true" else "false"
  | Value.null => "null"

/-- row[c]?.toString(): undefined and null short-circuit to undefined. -/
def optToStr : Option Value → Option String
  | none => none
  | some Value.null => none
  | some v => some v.toStr

/-- The result-kind tag of a query execution. -/
inductive QueryType where
  | SELECT
  | AGGREGATE
  | GROUP_BY
  | FILTER
  deriving DecidableEq

/-- Column names of the first row whose sampled values (the first 10 rows)
contain at least one number-typed value; empty data has no columns. -/
def getNumericColumns : List Row → List String
  | [] => []
  | r0 :: rest =>
    (r0.map Prod.fst).filter (fun col =>
      ((r0 :: rest).take 10).any (fun row => isNumberVal (rowGet row col)))

/-- Columns of the first row that are not numeric. -/
def getCategoricalColumns : List Row → List String
  | [] => []
  | r0 :: rest =>
    (r0.map Prod.fst).filter (fun col => !((getNumericColumns (r0 :: rest)).contains col))

/-- The column's values that pass the typeof-number filter, in row order. -/
def numberValues (data : List Row) (col : String) : List ℚ :=
  data.filterMap (fun row =>
    match rowGet row col with
    | some (Value.num q) => some q
    | _ => none)

/-- Math.min over a spread nonempty list (callers guard emptiness; the
default 0 is never produced). -/
def qMin : List ℚ → ℚ
  | [] => 0
  | v :: vs => vs.foldl min v

/-- Math.max over a spread nonempty list. -/
def qMax : List ℚ → ℚ
  | [] => 0
  | v :: vs => vs.foldl max v

/-- The five aggregate fields contributed by one column of the AGGREGATE
result row; a column with no number-typed value contributes nothing. -/
def aggFieldsFull (data : List Row) (col : String) : Row :=
  let values := numberValues data col
  if values.isEmpty then []
  else
    [("count_" ++ col, Value.num (values.length : ℚ)),
     ("sum_" ++ col, Value.num values.sum),
     ("avg_" ++ col, Value.num (values.sum / (values.length : ℚ))),
     ("min_" ++ col, Value.num (qMin values)),
     ("max_" ++ col, Value.num (qMax values))]

/-- AGGREGATE execution: a single result row of per-numeric-column
statistics. -/
def executeAggregateQuery (data : List Row) : List Row :=
  [((getNumericColumns data).map (aggFieldsFull data)).flatten]

/-- The group key of a row: row[g] || 'Unknown' (any falsy value is
replaced by the literal string). -/
def jsGroupKey (ov : Option Value) : Value :=
  if truthy ov then ov.getD (Value.str "Unknown") else Value.str "Unknown"

/-- Map insertion with first-insertion key order: append the row to its
key's bucket or open a new bucket at the end. -/
def insertGrouped (l : List (Value × List Row)) (k : Value) (r : Row) : List (Value × List Row) :=
  match l with
  | [] => [(k, [r])]
  | (k0, rs) :: rest =>
    if k0 = k then (k0, rs ++ [r]) :: rest else (k0, rs) :: insertGrouped rest k r

/-- The Map built by the GROUP BY partition loop. -/
def groupPairs (g : String) (data : List Row) : List (Value × List Row) :=
  data.foldl (fun acc row => insertGrouped acc (jsGroupKey (rowGet row g)) row) []

/-- The three aggregate fields contributed by one numeric column of a
group's result row. -/
def aggFieldsGroup (rows : List Row) (col : String) : Row :=
  let values := numberValues rows col
  if values.isEmpty then []
  else
    [("count_" ++ col, Value.num (values.length : ℚ)),
     ("sum_" ++ col, Value.num values.sum),
     ("avg_" ++ col, Value.num (values.sum / (values.length : ℚ)))]

/-- GROUP BY execution once the group column is known: one row per group,
holding the group key and per-numeric-column statistics of the group's own
rows. -/
def executeGroupByCore (g : String) (data : List Row) : List Row :=
  (groupPairs g data).map (fun p =>
    (g, p.1) :: ((getNumericColumns p.2).map (aggFieldsGroup p.2)).flatten)

/-- Case-insensitive literal match: drop the pattern from the head of the
text, comparing characters through toUpper. -/
def stripCI : List Char → List Char → Option (List Char)
  | [], cs => some cs
  | _ :: _, [] => none
  | p :: ps, c :: cs => if c.toUpper = p.toUpper then stripCI ps cs else none

/-- Attempt of the GROUP-BY regex GROUP\s+BY\s+(\w+) anchored at the
current position; yields the captured identifier. -/
def matchGroupByAt (cs : List Char) : Option (List Char) :=
  match stripCI "GROUP".data cs with
  | none => none
  | some r1 =>
    if (r1.takeWhile isSpaceChar).isEmpty then none
    else
      match stripCI "BY".data (r1.dropWhile isSpaceChar) with
      | none => none
      | some r2 =>
        if (r2.takeWhile isSpaceChar).isEmpty then none
        else
          let w := (r2.dropWhile isSpaceChar).takeWhile isWordChar
          if w.isEmpty then none else some w

/-- Leftmost match of the GROUP-BY regex over the whole text. -/
def scanGroupBy : List Char → Option (List Char)
  | [] => none
  | c :: rest =>
    match matchGroupByAt (c :: rest) with
    | some w => some w
    | none => scanGroupBy rest

/-- query.match(/GROUP\s+BY\s+(\w+)/i): the captured column name. -/
def extractGroupByColumn (q : String) : Option String :=
  (scanGroupBy q.data).map (fun w => String.mk w)

/-- GROUP BY execution from the raw query: extract the group column; an
unextractable or undeclared column degrades to a SELECT pass-through. -/
def executeGroupByQuery (query : String) (data : List Row) (columns : List String) :
    List Row × QueryType :=
  match extractGroupByColumn query with
  | none => (data, QueryType.SELECT)
  | some g =>
    if columns.contains g then (executeGroupByCore g data, QueryType.GROUP_BY)
    else (data, QueryType.SELECT)

/-- String.prototype.split('='): split at every occurrence of '='. -/
def splitOnEq : List Char → List (List Char)
  | [] => [[]]
  | c :: rest =>
    if c = '=' then [] :: splitOnEq rest
    else
      match splitOnEq rest with
      | [] => [[c]]
      | p :: ps => (c :: p) :: ps

/-- JavaScript String.prototype.trim over the character list. -/
def trimChars (cs : List Char) : List Char :=
  ((cs.dropWhile isSpaceChar).reverse.dropWhile isSpaceChar).reverse

/-- .replace(/['"]/g, ''): delete every quote character. -/
def stripQuotes (cs : List Char) : List Char :=
  cs.filter (fun c => decide (c ≠ Char.ofNat 39 ∧ c ≠ Char.ofNat 34))

/-- The per-row predicate of the WHERE filter: split the condition at each
'=' and take the first two parts as column and value; if either raw part is
empty (no '=', empty column, or empty value) the row passes; otherwise keep
the row exactly when its stringified field equals the trimmed, quote-
stripped value (strict string comparison; a missing or null field never
matches). -/
def filterKeep (condition : String) (row : Row) : Bool :=
  let parts := splitOnEq condition.data
  let column := parts.getD 0 []
  let value := parts.getD 1 []
  if column ≠ [] ∧ value ≠ [] then
    match optToStr (rowGet row (String.mk (trimChars column))) with
    | none => false
    | some s => decide (s = String.mk (stripQuotes (trimChars value)))
  else true

/-- data.filter over the WHERE equality predicate. -/
def filterRows (condition : String) (data : List Row) : List Row :=
  data.filter (filterKeep condition)

/-- Start-of-text match of the stop group (?:\s+GROUP\s+BY|\s+ORDER\s+BY)
of the WHERE-clause regex. -/
def stopClauseAt (cs : List Char) : Bool :=
  if (cs.takeWhile isSpaceChar).isEmpty then false
  else
    let r := cs.dropWhile isSpaceChar
    (match stripCI "GROUP".data r with
     | some r1 =>
       !(r1.takeWhile isSpaceChar).isEmpty && (stripCI "BY".data (r1.dropWhile isSpaceChar)).isSome
     | none => false)
    ||
    (match stripCI "ORDER".data r with
     | some r1 =>
       !(r1.takeWhile isSpaceChar).isEmpty && (stripCI "BY".data (r1.dropWhile isSpaceChar)).isSome
     | none => false)

/-- The lazy capture (.+?) of the WHERE regex: the shortest nonempty prefix
whose remainder is the end of the text or a stop clause. -/
def lazyCapture : List Char → List Char
  | [] => []
  | c :: rest => if rest.isEmpty ∨ stopClauseAt rest then [c] else c :: lazyCapture rest

/-- Attempt of WHERE\s+(.+?)(?:\s+GROUP\s+BY|\s+ORDER\s+BY|$) anchored at
the current position.  A position where only whitespace follows WHERE is
rejected here; the source would capture whitespace that trims to the empty
clause, which the caller treats identically to a failed match. -/
def matchWhereAt (cs : List Char) : Option (List Char) :=
  match stripCI "WHERE".data cs with
  | none => none
  | some r =>
    if (r.takeWhile isSpaceChar).isEmpty then none
    else
      let body := r.dropWhile isSpaceChar
      if body.isEmpty then none else some (lazyCapture body)

/-- Leftmost match of the WHERE regex over the whole text. -/
def scanWhere : List Char → Option (List Char)
  | [] => none
  | c :: rest =>
    match matchWhereAt (c :: rest) with
    | some w => some w
    | none => scanWhere rest

/-- Extraction of the WHERE clause: the regex capture, trimmed. -/
def extractFilterCondition (q : String) : Option String :=
  (scanWhere q.data).map (fun w => String.mk (trimChars w))

/-- FILTER execution from the raw query: no extractable (or an empty
trimmed) clause degrades to a SELECT pass-through. -/
def executeFilterQuery (query : String) (data : List Row) : List Row × QueryType :=
  match extractFilterCondition query with
  | none => (data, QueryType.SELECT)
  | some c =>
    if c = "" then (data, QueryType.SELECT) else (filterRows c data, QueryType.FILTER)

/-- query.toUpperCase() over the character list (ASCII). -/
def upperStr (s : String) : String :=
  String.mk (s.data.map Char.toUpper)

/-- JavaScript String.prototype.trim. -/
def trimStr (s : String) : String :=
  String.mk (trimChars s.data)

/-- haystack.includes(needle): contiguous substring test. -/
def isSubList : List Char → List Char → Bool
  | _, [] => false
  | pat, c :: rest =>
    (pat.isPrefixOf (c :: rest) : Bool) || isSubList pat rest

/-- String containment; the empty pattern is contained everywhere. -/
def includesStr (s pat : String) : Bool :=
  pat.data.isEmpty || isSubList pat.data s.data

/-- The ordered classification rules of the query parser and the dispatch
to the matching executor. -/
def executeQuery (query : String) (data : List Row) (columns : List String) :
    List Row × QueryType :=
  let upperQuery := trimStr (upperStr query)
  if includesStr upperQuery "SELECT" && includesStr upperQuery "FROM" then
    (data, QueryType.SELECT)
  else if includesStr upperQuery "COUNT" || includesStr upperQuery "SUM" ||
      includesStr upperQuery "AVG" then
    (executeAggregateQuery data, QueryType.AGGREGATE)
  else if includesStr upperQuery "GROUP BY" then
    executeGroupByQuery query data columns
  else if includesStr upperQuery "WHERE" then
    executeFilterQuery query data
  else
    (data, QueryType.SELECT)

/-- The summary block of a successful query result. -/
structure SQLSummary where
  rowCount : ℕ
  columnCount : ℕ
  numericColumns : List String
  categoricalColumns : List String
  deriving DecidableEq

/-- The tool's output shape. -/
structure SQLOutput where
  success : Bool
  result : List Row
  queryType : QueryType
  summary : SQLSummary
  deriving DecidableEq

/-- The sql tool's execute: the pure engine never throws, so the catch
branch (success = false) is unreachable in the model. -/
def sqlExecute (query : String) (data : List Row) (columns : List String) : SQLOutput :=
  let r := executeQuery query data columns
  { success := true
    result := r.1
    queryType := r.2
    summary :=
      { rowCount := r.1.length
        columnCount := (r.1.headD []).length
        numericColumns := getNumericColumns r.1
        categoricalColumns := getCategoricalColumns r.1 } }

/-- The chart label of an x value: row[x]?.toString() || 'Unknown'. -/
def xLabel (ov : Option Value) : String :=
  match optToStr ov with
  | none => "Unknown"
  | some s => if s = "" then "Unknown" else s

/-- Map insertion with first-insertion key order for numeric buckets. -/
def insertNum (l : List (String × List ℚ)) (k : String) (v : ℚ) : List (String × List ℚ) :=
  match l with
  | [] => [(k, [v])]
  | (k0, vs) :: rest =>
    if k0 = k then (k0, vs ++ [v]) :: rest else (k0, vs) :: insertNum rest k v

/-- The grouping loop shared by the bar/line and box aggregators: parseable
y values bucketed by the chart label of x, first-seen order; rows whose y
does not parse are dropped before insertion. -/
def numericGroups (data : List Row) (xAxis yAxis : String) : List (String × List ℚ) :=
  data.foldl (fun acc row =>
    match parseFloatVal (rowGet row yAxis) with
    | none => acc
    | some y => insertNum acc (xLabel (rowGet row xAxis)) y) []

/-- One point of a bar/line series. -/
structure CatPoint where
  x : String
  y : ℚ
  count : ℕ
  deriving DecidableEq

/-- bar/line series: the mean of each group's y values plus its size. -/
def processCategoricalData (data : List Row) (xAxis yAxis : String) : List CatPoint :=
  (numericGroups data xAxis yAxis).map (fun p =>
    { x := p.1, y := p.2.sum / (p.2.length : ℚ), count := p.2.length })

/-- scatter series: rows with both coordinates parseable. -/
def processScatterData (data : List Row) (xAxis yAxis : String) : List (ℚ × ℚ) :=
  data.filterMap (fun row =>
    match parseFloatVal (rowGet row xAxis), parseFloatVal (rowGet row yAxis) with
    | some x, some y => some (x, y)
    | _, _ => none)

/-- Map insertion for the pie totals. -/
def insertPie (l : List (String × ℚ)) (k : String) (v : ℚ) : List (String × ℚ) :=
  match l with
  | [] => [(k, v)]
  | (k0, s) :: rest => if k0 = k then (k0, s + v) :: rest else (k0, s) :: insertPie rest k v

/-- pie series: per-label sums of y, an unparseable y counting as 0
(parseFloat(y) || 0). -/
def processPieData (data : List Row) (xAxis yAxis : String) : List (String × ℚ) :=
  data.foldl (fun acc row =>
    insertPie acc (xLabel (rowGet row xAxis)) ((parseFloatVal (rowGet row yAxis)).getD 0)) []

/-- Math.ceil(Math.sqrt(n)) for a natural n: the least k with n ≤ k * k,
computed by a fuelled count-up (k = n always suffices). -/
def ceilSqrtAux (n : ℕ) : ℕ → ℕ → ℕ
  | 0, k => k
  | f + 1, k => if n ≤ k * k then k else ceilSqrtAux n f (k + 1)

/-- Math.ceil(Math.sqrt(n)). -/
def ceilSqrt (n : ℕ) : ℕ :=
  ceilSqrtAux n n 0

/-- The parseable x values feeding the histogram. -/
def histValues (data : List Row) (xAxis : String) : List ℚ :=
  data.filterMap (fun row => parseFloatVal (rowGet row xAxis))

/-- The clamped bin index Math.min(Math.floor((v - min) / size), binCount-1)
as an integer, or none when the JavaScript computation yields NaN (0/0, on
size = 0 with v = min) or -Infinity; either is a non-integer array key, so
no bin is touched.  A positive quotient over size = 0 is +Infinity, which
the Math.min clamp sends to binCount - 1. -/
def binIndex (v minV size : ℚ) (binCount : ℕ) : Option ℤ :=
  if size = 0 then
    if v = minV then none
    else if minV < v then some ((binCount : ℤ) - 1)
    else none
  else some (min ⌊(v - minV) / size⌋ ((binCount : ℤ) - 1))

/-- histogram series: bin centers paired with the number of values whose
clamped bin index is that bin (the functional reading of the increment
loop); empty when no value parses. -/
def processHistogramData (data : List Row) (xAxis : String) : List (ℚ × ℚ) :=
  let values := histValues data xAxis
  if values.isEmpty then []
  else
    let minV := qMin values
    let maxV := qMax values
    let binCount := Nat.min 10 (ceilSqrt values.length)
    let binSize := (maxV - minV) / (binCount : ℚ)
    (List.range binCount).map (fun (i : ℕ) =>
      (minV + ((i : ℚ) + 1/2) * binSize,
       ((values.countP (fun v => decide (binIndex v minV binSize binCount = some (i : ℤ)))) : ℚ)))

/-- One entry of a box-plot series. -/
structure BoxEntry where
  x : String
  min : ℚ
  q1 : ℚ
  median : ℚ
  q3 : ℚ
  max : ℚ
  deriving DecidableEq

/-- Ascending insertion into a sorted list. -/
def insertSorted (x : ℚ) : List ℚ → List ℚ
  | [] => [x]
  | y :: ys => if x ≤ y then x :: y :: ys else y :: insertSorted x ys

/-- Ascending sort (the comparator (a, b) => a - b); the ascending
rearrangement of a list of rationals is unique, so any correct sort
realizes the source's Array.prototype.sort. -/
def sortQ (l : List ℚ) : List ℚ :=
  l.foldr insertSorted []

/-- The box statistics of one group: nearest-rank quantiles of the sorted
values at indices 0, floor(n/4), floor(n/2), floor(3n/4), n - 1. -/
def boxStats (x : String) (ys : List ℚ) : BoxEntry :=
  let sorted := sortQ ys
  let n := sorted.length
  { x := x
    min := sorted.getD 0 0
    q1 := sorted.getD (n / 4) 0
    median := sorted.getD (n / 2) 0
    q3 := sorted.getD (3 * n / 4) 0
    max := sorted.getD (n - 1) 0 }

/-- box series: one entry per group of parseable y values. -/
def processBoxData (data : List Row) (xAxis yAxis : String) : List BoxEntry :=
  (numericGroups data xAxis yAxis).map (fun p => boxStats p.1 p.2)

/-- The chart kinds accepted by the visualization tool. -/
inductive ChartType where
  | bar
  | line
  | scatter
  | pie
  | histogram
  | box
  deriving DecidableEq

/-- The chart-specific series shapes. -/
inductive ChartData where
  | catData (l : List CatPoint)
  | scatterData (l : List (ℚ × ℚ))
  | pieData (l : List (String × ℚ))
  | histData (l : List (ℚ × ℚ))
  | boxData (l : List BoxEntry)
  deriving DecidableEq

/-- Dispatch of processDataForChart over the (exhaustive) chart kinds. -/
def processDataForChart (data : List Row) (xAxis yAxis : String) : ChartType → ChartData
  | ChartType.bar => ChartData.catData (processCategoricalData data xAxis yAxis)
  | ChartType.line => ChartData.catData (processCategoricalData data xAxis yAxis)
  | ChartType.scatter => ChartData.scatterData (processScatterData data xAxis yAxis)
  | ChartType.pie => ChartData.pieData (processPieData data xAxis yAxis)
  | ChartType.histogram => ChartData.histData (processHistogramData data xAxis)
  | ChartType.box => ChartData.boxData (processBoxData data xAxis yAxis)

/-- The optional visual options of a request. -/
structure ChartOptions where
  color : Option String := none
  width : Option ℕ := none
  height : Option ℕ := none
  showLegend : Option Bool := none
  deriving DecidableEq

/-- The chart name as a lower-case string. -/
def chartTypeName : ChartType → String
  | ChartType.bar => "bar"
  | ChartType.line => "line"
  | ChartType.scatter => "scatter"
  | ChartType.pie => "pie"
  | ChartType.histogram => "histogram"
  | ChartType.box => "box"

/-- chartType.charAt(0).toUpperCase() + chartType.slice(1). -/
def capitalizeStr (s : String) : String :=
  match s.data with
  | [] => ""
  | c :: rest => String.mk (c.toUpper :: rest)

/-- The chart configuration object; visual options irrelevant to the
claims are carried as plain fields. -/
structure ChartConfig where
  type : ChartType
  data : ChartData
  title : String
  xAxisLabel : String
  yAxisLabel : String
  color : String
  width : ℕ
  height : ℕ
  showLegend : Bool
  barWidth : Option ℚ := none
  lineWidth : Option ℚ := none
  showPoints : Option Bool := none
  pointSize : Option ℚ := none
  showPercentages : Option Bool := none
  deriving DecidableEq

/-- generateChartConfig: base options with chart-specific additions; a
missing title becomes "<Capitalized> Chart". -/
def generateChartConfig (chartType : ChartType) (chartData : ChartData)
    (xAxis yAxis title : String) (options : ChartOptions) : ChartConfig :=
  let base : ChartConfig :=
    { type := chartType
      data := chartData
      title := if title = "" then capitalizeStr (chartTypeName chartType) ++ " Chart" else title
      xAxisLabel := xAxis
      yAxisLabel := yAxis
      color := options.color.getD "#3B82F6"
      width := options.width.getD 800
      height := options.height.getD 600
      showLegend := options.showLegend.getD true }
  match chartType with
  | ChartType.bar => { base with barWidth := some (4/5) }
  | ChartType.line => { base with lineWidth := some 2, showPoints := some true }
  | ChartType.scatter => { base with pointSize := some 6 }
  | ChartType.pie => { base with showPercentages := some true }
  | ChartType.histogram => { base with barWidth := some 1 }
  | ChartType.box => base

/-- generateRecommendations: the five fixed heuristics in source order.
The outlier test abs(v - mean) > 2 * std is expressed without the square
root as (v - mean)^2 > 4 * variance, equivalent over exact reals since
both sides of the original comparison are nonnegative. -/
def generateRecommendations (data : List Row) (chartType : ChartType)
    (xAxis yAxis : String) : List String :=
  let xIsNumeric := data.any (fun row => isNumberVal (rowGet row xAxis))
  let yIsNumeric := data.any (fun row => isNumberVal (rowGet row yAxis))
  let r1 : List String :=
    if chartType = ChartType.bar ∧ xIsNumeric = true then
      ["Consider using a line chart for numeric X-axis data"] else []
  let r2 : List String :=
    if chartType = ChartType.line ∧ xIsNumeric = false then
      ["Consider using a bar chart for categorical X-axis data"] else []
  let r3 : List String :=
    if chartType = ChartType.scatter ∧ (xIsNumeric = false ∨ yIsNumeric = false) then
      ["Scatter plots work best with numeric data on both axes"] else []
  let r4 : List String :=
    if chartType = ChartType.pie ∧ data.length > 10 then
      ["Pie charts become hard to read with more than 10 categories. Consider a bar chart instead."]
    else []
  let r5 : List String :=
    if yIsNumeric = true then
      let yNumbers := data.filterMap (fun row =>
        match rowGet row yAxis with
        | some (Value.num q) => some q
        | _ => none)
      if yNumbers.length > 0 then
        let mean := yNumbers.sum / (yNumbers.length : ℚ)
        let variance := (yNumbers.map (fun v => (v - mean) ^ 2)).sum / (yNumbers.length : ℚ)
        let outliers := yNumbers.filter (fun v => decide ((v - mean) ^ 2 > 4 * variance))
        if outliers.length > 0 then
          ["Found " ++ toString outliers.length ++
            " potential outliers. Consider using a box plot to visualize the distribution."]
        else []
      else []
    else []
  r1 ++ r2 ++ r3 ++ r4 ++ r5

/-- The visualization tool's output shape. -/
structure VizOutput where
  success : Bool
  chartData : Option ChartData
  chartConfig : Option ChartConfig
  error : Option String
  recommendations : Option (List String)
  deriving DecidableEq

/-- The single-quote character, kept out of string literals. -/
def squoteStr : String :=
  String.singleton (Char.ofNat 39)

/-- The thrown message for an undeclared x-axis column. -/
def xAxisErr (xAxis : String) : String :=
  "X-axis column " ++ squoteStr ++ xAxis ++ squoteStr ++ " not found in data"

/-- The thrown message for an undeclared y-axis column. -/
def yAxisErr (yAxis : String) : String :=
  "Y-axis column " ++ squoteStr ++ yAxis ++ squoteStr ++ " not found in data"

/-- The visualization tool's execute: validate both axes against the
declared columns (a failure is caught and reported with no other output
fields), then build the series, the configuration and the
recommendations. -/
def vizExecute (data : List Row) (columns : List String) (chartType : ChartType)
    (xAxis yAxis title : String) (options : ChartOptions) : VizOutput :=
  if xAxis ∉ columns then
    { success := false, chartData := none, chartConfig := none,
      error := some (xAxisErr xAxis), recommendations := none }
  else if yAxis ∉ columns then
    { success := false, chartData := none, chartConfig := none,
      error := some (yAxisErr yAxis), recommendations := none }
  else
    let chartData := processDataForChart data xAxis yAxis chartType
    { success := true
      chartData := some chartData
      chartConfig := some (generateChartConfig chartType chartData xAxis yAxis title options)
      error := none
      recommendations := some (generateRecommendations data chartType xAxis yAxis) }

unseal Rat.add Rat.mul Rat.inv Rat.sub

example : parseFloatChars "5".data = some 5 := by decide
example : parseFloatChars "  -2.5".data = some (-(5/2) : ℚ) := by decide
example : parseFloatChars "abc".data = none := by decide
example : parseFloatChars "12px".data = some 12 := by decide
example : extractGroupByColumn "SELECT * FROM t GROUP BY region" = some "region" := by decide
example : extractGroupByColumn "group  by  col_9 rest" = some "col_9" := by decide
example : extractGroupByColumn "GROUP BYx" = none := by decide
example : extractFilterCondition "x WHERE a=1 ORDER BY b" = some "a=1" := by decide
example : extractFilterCondition "x WHERE a=1" = some "a=1" := by decide
example : extractFilterCondition "nothing here" = none := by decide
example : splitOnEq "a=b=c".data = ["a".data, "b".data, "c".data] := by decide
example :
    filterRows ("status = " ++ squoteStr ++ "active" ++ squoteStr)
      [[("status", Value.str "active")], [("status", Value.str "inactive")],
       [("status", Value.str "active")]]
      = [[("status", Value.str "active")], [("status", Value.str "active")]] := by decide
example :
    (executeQuery "SELECT * FROM data WHERE x=1" [[("x", Value.num 1)]] ["x"]).2
      = QueryType.SELECT := by decide
example :
    ((processHistogramData
        [[("x", Value.num 1)], [("x", Value.num 2)], [("x", Value.num 3)],
         [("x", Value.num 4)], [("x", Value.num 5)], [("x", Value.num 6)],
         [("x", Value.num 7)], [("x", Value.num 8)], [("x", Value.num 9)],
         [("x", Value.num 10)]] "x").map Prod.snd).sum = 10 := by decide
example :
    processHistogramData [[("x", Value.num 1)], [("x", Value.num 1)]] "x"
      = [(1, 0), (1, 0)] := by decide
example :
    executeGroupByCore "g" [[("g", Value.num 5)], [("g", Value.str "5")]]
      = [[("g", Value.num 5), ("count_g", Value.num 1), ("sum_g", Value.num 5),
          ("avg_g", Value.num 5)],
         [("g", Value.str "5")]] := by decide
example :
    executeAggregateQuery [[("x", Value.num 1), ("y", Value.num 2)],
                           [("x", Value.num 3), ("y", Value.num 4)]]
      = [[("count_x", Value.num 2), ("sum_x", Value.num 4), ("avg_x", Value.num 2),
          ("min_x", Value.num 1), ("max_x", Value.num 3),
          ("count_y", Value.num 2), ("sum_y", Value.num 6), ("avg_y", Value.num 3),
          ("min_y", Value.num 2), ("max_y", Value.num 4)]] := by decide
example :
    processBoxData [[("x", Value.str "a"), ("y", Value.num 3)],
                    [("x", Value.str "a"), ("y", Value.num 1)],
                    [("x", Value.str "a"), ("y", Value.num 2)]] "x" "y"
      = [{ x := "a", min := 1, q1 := 1, median := 2, q3 := 3, max := 3 }] := by decide
example : ceilSqrt 10 = 4 := by decide
example : ceilSqrt 2 = 2 := by decide
example : ceilSqrt 1 = 1 := by decide

/-- C2 (amended): a column is classified Numeric exactly when it is a key
of the first row and at least one of its values among the first
min(10, rowCount) rows is number-typed; numeric strings never count, and a
column absent from the first row is never Numeric. -/
theorem numeric_classification (data : List Row) (col : String) :
    col ∈ getNumericColumns data ↔
      col ∈ (data.headD []).map Prod.fst ∧
        (data.take 10).any (fun row => isNumberVal (rowGet row col)) = true := by
  cases data with
  | nil => simp [getNumericColumns]
  | cons r0 rest => simp [getNumericColumns, List.mem_filter]

/-- C2 counterexample: the value "5" is a non-empty string that fully
parses as a finite number, yet its column is not classified Numeric. -/
theorem numeric_classification_counterexample :
    getNumericColumns [[("a", Value.str "5")]] = [] ∧
      parseFloatVal (rowGet [("a", Value.str "5")] "a") = some 5 := by
  decide

/-- C10: the GROUP BY key coercion row[g] || 'Unknown' sends every falsy
value — a missing field, null, false, the number 0 and the empty string —
to the literal group label "Unknown". -/
theorem groupkey_falsy (ov : Option Value) (h : truthy ov = false) :
    jsGroupKey ov = Value.str "Unknown" := by
  unfold jsGroupKey
  simp [h]

/-- C10 witness: the number 0 is falsy and lands in the "Unknown" group,
exactly like a missing value. -/
theorem groupkey_falsy_witness :
    truthy (some (Value.num 0)) = false ∧
      jsGroupKey (some (Value.num 0)) = Value.str "Unknown" ∧
      jsGroupKey none = Value.str "Unknown" :=
  ⟨by decide, groupkey_falsy (some (Value.num 0)) (by decide),
    groupkey_falsy none (by decide)⟩

/-- C5: a query whose uppercased form contains both SELECT and FROM is
classified SELECT by the first rule and executes as the identity on the
table, regardless of any WHERE or GROUP BY content. -/
theorem select_rule_priority (query : String) (data : List Row) (columns : List String)
    (h1 : includesStr (trimStr (upperStr query)) "SELECT" = true)
    (h2 : includesStr (trimStr (upperStr query)) "FROM" = true) :
    executeQuery query data columns = (data, QueryType.SELECT) := by
  unfold executeQuery
  simp [h1, h2]

/-- C5 witness: "SELECT * FROM data WHERE x=1" is classified SELECT and
its WHERE clause filters nothing. -/
theorem select_rule_priority_witness :
    includesStr (trimStr (upperStr "SELECT * FROM data WHERE x=1")) "SELECT" = true ∧
      includesStr (trimStr (upperStr "SELECT * FROM data WHERE x=1")) "FROM" = true ∧
      executeQuery "SELECT * FROM data WHERE x=1"
          [[("x", Value.num 1)], [("x", Value.num 2)]] ["x"]
        = ([[("x", Value.num 1)], [("x", Value.num 2)]], QueryType.SELECT) :=
  ⟨by decide, by decide,
    select_rule_priority "SELECT * FROM data WHERE x=1"
      [[("x", Value.num 1)], [("x", Value.num 2)]] ["x"] (by decide) (by decide)⟩

/-- C8: a query that reaches the GROUP BY rule (no SELECT-and-FROM, no
COUNT/SUM/AVG, contains GROUP BY) but whose extracted group column is
missing or undeclared degrades silently: the tool reports success with the
input table unchanged and queryType SELECT. -/
theorem groupby_unknown_column_fail_soft (query : String) (data : List Row)
    (columns : List String)
    (h1 : (includesStr (trimStr (upperStr query)) "SELECT" &&
      includesStr (trimStr (upperStr query)) "FROM") = false)
    (h2 : (includesStr (trimStr (upperStr query)) "COUNT" ||
      includesStr (trimStr (upperStr query)) "SUM" ||
      includesStr (trimStr (upperStr query)) "AVG") = false)
    (h3 : includesStr (trimStr (upperStr query)) "GROUP BY" = true)
    (h4 : ∀ g, extractGroupByColumn query = some g → g ∉ columns) :
    (sqlExecute query data columns).success = true ∧
      (sqlExecute query data columns).result = data ∧
      (sqlExecute query data columns).queryType = QueryType.SELECT := by
  have hq : executeQuery query data columns = (data, QueryType.SELECT) := by
    unfold executeQuery
    simp only [h1, h2, h3, if_false, if_true, Bool.false_eq_true, if_neg, ite_false, ite_true]
    unfold executeGroupByQuery
    cases hE : extractGroupByColumn query with
    | none => rfl
    | some g =>
      have hg := h4 g hE
      simp [hg]
  unfold sqlExecute
  rw [hq]
  exact ⟨rfl, rfl, rfl⟩

/-- C8 witness: "GROUP BY missing" against declared columns [a]. -/
theorem groupby_unknown_column_fail_soft_witness :
    includesStr (trimStr (upperStr "GROUP BY missing")) "GROUP BY" = true ∧
      (sqlExecute "GROUP BY missing" [[("a", Value.num 1)]] ["a"]).success = true ∧
      (sqlExecute "GROUP BY missing" [[("a", Value.num 1)]] ["a"]).result
        = [[("a", Value.num 1)]] ∧
      (sqlExecute "GROUP BY missing" [[("a", Value.num 1)]] ["a"]).queryType
        = QueryType.SELECT := by
  refine ⟨by decide, ?_⟩
  refine groupby_unknown_column_fail_soft "GROUP BY missing" [[("a", Value.num 1)]] ["a"]
    (by decide) (by decide) (by decide) ?_
  intro g hg
  have hx : extractGroupByColumn "GROUP BY missing" = some "missing" := by decide
  rw [hx] at hg
  cases hg
  decide

/-- C9: a visualization request naming an undeclared x or y column is
rejected before any processing: success is false, the error names the
missing column, and no chart data, configuration or recommendations are
produced. -/
theorem viz_missing_axis_rejected (data : List Row) (columns : List String)
    (chartType : ChartType) (xAxis yAxis title : String) (options : ChartOptions)
    (h : xAxis ∉ columns ∨ yAxis ∉ columns) :
    (vizExecute data columns chartType xAxis yAxis title options).success = false ∧
      (vizExecute data columns chartType xAxis yAxis title options).chartData = none ∧
      (vizExecute data columns chartType xAxis yAxis title options).chartConfig = none ∧
      (vizExecute data columns chartType xAxis yAxis title options).recommendations = none ∧
      ((vizExecute data columns chartType xAxis yAxis title options).error
          = some (xAxisErr xAxis) ∨
        (vizExecute data columns chartType xAxis yAxis title options).error
          = some (yAxisErr yAxis)) := by
  by_cases hx : xAxis ∈ columns
  · have hy : yAxis ∉ columns := h.resolve_left (not_not_intro hx)
    unfold vizExecute
    simp [hx, hy]
  · unfold vizExecute
    simp [hx]

/-- C9 witness: requesting x-axis "b" against declared columns [a]. -/
theorem viz_missing_axis_rejected_witness :
    ("b" ∉ (["a"] : List String) ∨ "a" ∉ (["a"] : List String)) ∧
      (vizExecute [] ["a"] ChartType.bar "b" "a" "" {}).success = false ∧
      (vizExecute [] ["a"] ChartType.bar "b" "a" "" {}).chartData = none ∧
      (vizExecute [] ["a"] ChartType.bar "b" "a" "" {}).chartConfig = none ∧
      (vizExecute [] ["a"] ChartType.bar "b" "a" "" {}).recommendations = none ∧
      ((vizExecute [] ["a"] ChartType.bar "b" "a" "" {}).error = some (xAxisErr "b") ∨
        (vizExecute [] ["a"] ChartType.bar "b" "a" "" {}).error = some (yAxisErr "a")) :=
  ⟨by decide, viz_missing_axis_rejected [] ["a"] ChartType.bar "b" "a" "" {} (by decide)⟩

/-- C4 (amended): the clause is split at every '='; the column part is the
text before the first '=' and the value part the text between the first
and the second '=' (text after a second '=' is discarded).  If the clause
has no '=', or the raw column part or raw value part is empty, every row
is kept; otherwise a row is kept exactly when its stringified column value
equals the trimmed value with every quote character deleted (string
comparison; a missing or null field never matches). -/
theorem filter_split_semantics (condition : String) (data : List Row) :
    ((splitOnEq condition.data).getD 0 [] = [] ∨ (splitOnEq condition.data).getD 1 [] = [] →
      filterRows condition data = data) ∧
    ((splitOnEq condition.data).getD 0 [] ≠ [] → (splitOnEq condition.data).getD 1 [] ≠ [] →
      ∀ row, row ∈ filterRows condition data ↔
        row ∈ data ∧
          optToStr (rowGet row (String.mk (trimChars ((splitOnEq condition.data).getD 0 []))))
            = some (String.mk (stripQuotes (trimChars ((splitOnEq condition.data).getD 1 [])))))
    := by
  constructor
  · intro h
    apply List.filter_eq_self.mpr
    intro row hrow
    have hc : ¬ ((splitOnEq condition.data).getD 0 [] ≠ [] ∧
        (splitOnEq condition.data).getD 1 [] ≠ []) := by
      rcases h with h | h
      · exact fun hx => hx.1 h
      · exact fun hx => hx.2 h
    simp only [filterKeep]
    rw [if_neg hc]
  · intro h1 h2 row
    unfold filterRows
    rw [List.mem_filter]
    constructor
    · rintro ⟨hmem, hkeep⟩
      refine ⟨hmem, ?_⟩
      simp only [filterKeep] at hkeep
      rw [if_pos ⟨h1, h2⟩] at hkeep
      revert hkeep
      cases hopt : optToStr (rowGet row
          (String.mk (trimChars ((splitOnEq condition.data).getD 0 [])))) with
      | none => intro hkeep; simp at hkeep
      | some s =>
        intro hkeep
        simp only [decide_eq_true_eq] at hkeep
        rw [hkeep]
    · rintro ⟨hmem, heq⟩
      refine ⟨hmem, ?_⟩
      simp only [filterKeep]
      rw [if_pos ⟨h1, h2⟩, heq]
      simp

/-- C4 witness: the clause status = 'active' keeps exactly the rows whose
status stringifies to active. -/
theorem filter_split_semantics_witness :
    (splitOnEq ("status = " ++ squoteStr ++ "active" ++ squoteStr).data).getD 0 [] ≠ [] ∧
      (splitOnEq ("status = " ++ squoteStr ++ "active" ++ squoteStr).data).getD 1 [] ≠ [] ∧
      ([("status", Value.str "active")] ∈
          filterRows ("status = " ++ squoteStr ++ "active" ++ squoteStr)
            [[("status", Value.str "active")], [("status", Value.str "inactive")],
             [("status", Value.str "active")]] ↔
        [("status", Value.str "active")] ∈
            ([[("status", Value.str "active")], [("status", Value.str "inactive")],
              [("status", Value.str "active")]] : List Row) ∧
          optToStr (rowGet [("status", Value.str "active")]
              (String.mk (trimChars ((splitOnEq
                ("status = " ++ squoteStr ++ "active" ++ squoteStr).data).getD 0 []))))
            = some (String.mk (stripQuotes (trimChars ((splitOnEq
                ("status = " ++ squoteStr ++ "active" ++ squoteStr).data).getD 1 []))))) :=
  ⟨by decide, by decide,
    (filter_split_semantics ("status = " ++ squoteStr ++ "active" ++ squoteStr)
        [[("status", Value.str "active")], [("status", Value.str "inactive")],
         [("status", Value.str "active")]]).2
      (by decide) (by decide) [("status", Value.str "active")]⟩

/-- C4 counterexample: with the clause x=a=b the source compares against
the text between the first two '=' signs ("a"), not against everything
after the first '=' ("a=b"): the row whose x stringifies to "a" is kept
although "a" differs from the claim's literal "a=b". -/
theorem filter_split_counterexample :
    filterRows "x=a=b" [[("x", Value.str "a")]] = [[("x", Value.str "a")]] ∧
      Value.toStr (Value.str "a") ≠ String.mk (stripQuotes (trimChars "a=b".data)) := by
  decide

theorem mem_insertSorted (x a : ℚ) (l : List ℚ) :
    a ∈ insertSorted x l ↔ a = x ∨ a ∈ l := by
  induction l with
  | nil => simp [insertSorted]
  | cons y ys ih =>
    simp only [insertSorted]
    by_cases h : x ≤ y
    · simp [h]
    · simp only [h, if_false, List.mem_cons, ih]
      tauto

theorem sorted_insertSorted (x : ℚ) (l : List ℚ) (h : l.Sorted (· ≤ ·)) :
    (insertSorted x l).Sorted (· ≤ ·) := by
  induction l with
  | nil => simp [insertSorted]
  | cons y ys ih =>
    rw [List.sorted_cons] at h
    obtain ⟨hy, hys⟩ := h
    simp only [insertSorted]
    by_cases hxy : x ≤ y
    · rw [if_pos hxy, List.sorted_cons]
      refine ⟨?_, ?_⟩
      · intro b hb
        rcases List.mem_cons.mp hb with rfl | hb
        · exact hxy
        · exact le_trans hxy (hy b hb)
      · rw [List.sorted_cons]
        exact ⟨hy, hys⟩
    · rw [if_neg hxy, List.sorted_cons]
      refine ⟨?_, ih hys⟩
      intro b hb
      rcases (mem_insertSorted x b ys).mp hb with rfl | hb
      · exact le_of_not_le hxy
      · exact hy b hb

theorem sorted_sortQ (l : List ℚ) : (sortQ l).Sorted (· ≤ ·) := by
  induction l with
  | nil => simp [sortQ]
  | cons x xs ih =>
    simp only [sortQ, List.foldr_cons]
    exact sorted_insertSorted x _ ih

theorem sorted_getD_le (l : List ℚ) (hs : l.Sorted (· ≤ ·)) (i j : ℕ) (hij : i ≤ j)
    (hj : j < l.length) : l.getD i 0 ≤ l.getD j 0 := by
  have hi : i < l.length := lt_of_le_of_lt hij hj
  rw [List.getD_eq_getElem l 0 hi, List.getD_eq_getElem l 0 hj]
  have := List.Sorted.rel_get_of_le hs
    (a := ⟨i, hi⟩) (b := ⟨j, hj⟩) (by exact hij)
  simpa [List.get_eq_getElem] using this

/-- C7: every box-plot entry satisfies min ≤ q1 ≤ median ≤ q3 ≤ max; the
statistics are the nearest-rank picks of the group's ascending values at
indices 0, floor(n/4), floor(n/2), floor(3n/4), n-1 by construction. -/
theorem box_quartiles_ordered (data : List Row) (xAxis yAxis : String) (e : BoxEntry)
    (he : e ∈ processBoxData data xAxis yAxis) :
    e.min ≤ e.q1 ∧ e.q1 ≤ e.median ∧ e.median ≤ e.q3 ∧ e.q3 ≤ e.max := by
  obtain ⟨p, hp, rfl⟩ := List.mem_map.mp he
  have hsorted := sorted_sortQ p.2
  simp only [boxStats]
  rcases Nat.eq_zero_or_pos (sortQ p.2).length with h0 | hpos
  · have hnil : sortQ p.2 = [] := List.length_eq_zero.mp h0
    simp [hnil]
  · refine ⟨?_, ?_, ?_, ?_⟩
    · exact sorted_getD_le _ hsorted _ _ (by omega) (by omega)
    · exact sorted_getD_le _ hsorted _ _ (by omega) (by omega)
    · exact sorted_getD_le _ hsorted _ _ (by omega) (by omega)
    · exact sorted_getD_le _ hsorted _ _ (by omega) (by omega)

/-- C7 witness: the single group of y values [3, 1, 2]. -/
theorem box_quartiles_ordered_witness :
    ({ x := "a", min := 1, q1 := 1, median := 2, q3 := 3, max := 3 } : BoxEntry) ∈
        processBoxData [[("x", Value.str "a"), ("y", Value.num 3)],
                        [("x", Value.str "a"), ("y", Value.num 1)],
                        [("x", Value.str "a"), ("y", Value.num 2)]] "x" "y" ∧
      ((1 : ℚ) ≤ 1 ∧ (1 : ℚ) ≤ 2 ∧ (2 : ℚ) ≤ 3 ∧ (3 : ℚ) ≤ 3) :=
  ⟨by decide,
    box_quartiles_ordered [[("x", Value.str "a"), ("y", Value.num 3)],
                           [("x", Value.str "a"), ("y", Value.num 1)],
                           [("x", Value.str "a"), ("y", Value.num 2)]] "x" "y"
      { x := "a", min := 1, q1 := 1, median := 2, q3 := 3, max := 3 } (by decide)⟩

theorem rowGet_cons_self (k : String) (v : Value) (r : Row) :
    rowGet ((k, v) :: r) k = some v := by
  simp [rowGet]

theorem rowGet_cons_ne (k k' : String) (v : Value) (r : Row) (h : k ≠ k') :
    rowGet ((k, v) :: r) k' = rowGet r k' := by
  simp [rowGet, List.find?_cons_of_neg, h]

theorem rowGet_append (r₁ r₂ : Row) (k : String) :
    rowGet (r₁ ++ r₂) k = (rowGet r₁ k).or (rowGet r₂ k) := by
  unfold rowGet
  rw [List.find?_append]
  cases List.find? (fun p => p.1 = k) r₁ <;> simp

theorem append_ne_at (t₁ t₂ u v : String) (n : ℕ) (h₁ : n < t₁.data.length)
    (h₂ : n < t₂.data.length) (h₃ : t₁.data[n]? ≠ t₂.data[n]?) :
    t₁ ++ u ≠ t₂ ++ v := by
  intro h
  apply h₃
  have hd : (t₁ ++ u).data = (t₂ ++ v).data := by rw [h]
  rw [String.data_append, String.data_append] at hd
  have e1 : (t₁.data ++ u.data)[n]? = t₁.data[n]? := List.getElem?_append_left h₁
  have e2 : (t₂.data ++ v.data)[n]? = t₂.data[n]? := List.getElem?_append_left h₂
  rw [← e1, ← e2, hd]

theorem append_left_cancel_str {t u v : String} (h : t ++ u = t ++ v) : u = v := by
  have hd : (t ++ u).data = (t ++ v).data := by rw [h]
  rw [String.data_append, String.data_append] at hd
  exact String.ext (List.append_cancel_left hd)

/-- The five aggregate field tags. -/
def isAggTag (T : String) : Prop :=
  T = "count_" ∨ T = "sum_" ∨ T = "avg_" ∨ T = "min_" ∨ T = "max_"

theorem agg_key_ne (T' T c' c : String) (hne : c' ≠ c) (hT' : isAggTag T')
    (hT : isAggTag T) : T' ++ c' ≠ T ++ c := by
  rcases hT' with rfl | rfl | rfl | rfl | rfl <;>
    rcases hT with rfl | rfl | rfl | rfl | rfl <;>
    first
      | exact fun h => hne (append_left_cancel_str h)
      | exact append_ne_at _ _ _ _ 0 (by decide) (by decide) (by decide)
      | exact append_ne_at _ _ _ _ 1 (by decide) (by decide) (by decide)

theorem rowGet_aggFieldsFull_skip (data : List Row) (c' c : String) (hne : c' ≠ c)
    (T : String) (hT : isAggTag T) :
    rowGet (aggFieldsFull data c') (T ++ c) = none := by
  unfold aggFieldsFull
  by_cases hv : (numberValues data c').isEmpty
  · simp [hv, rowGet]
  · simp only [hv, Bool.false_eq_true, if_false]
    rw [rowGet_cons_ne _ _ _ _ (agg_key_ne "count_" T c' c hne (Or.inl rfl) hT)]
    rw [rowGet_cons_ne _ _ _ _ (agg_key_ne "sum_" T c' c hne (Or.inr (Or.inl rfl)) hT)]
    rw [rowGet_cons_ne _ _ _ _ (agg_key_ne "avg_" T c' c hne (Or.inr (Or.inr (Or.inl rfl))) hT)]
    rw [rowGet_cons_ne _ _ _ _
      (agg_key_ne "min_" T c' c hne (Or.inr (Or.inr (Or.inr (Or.inl rfl)))) hT)]
    rw [rowGet_cons_ne _ _ _ _
      (agg_key_ne "max_" T c' c hne (Or.inr (Or.inr (Or.inr (Or.inr rfl)))) hT)]
    rfl

theorem cross_tag_ne (T' T c : String) (hT' : isAggTag T') (hT : isAggTag T)
    (hTT : T' ≠ T) : T' ++ c ≠ T ++ c := by
  rcases hT' with rfl | rfl | rfl | rfl | rfl <;>
    rcases hT with rfl | rfl | rfl | rfl | rfl <;>
    first
      | exact absurd rfl hTT
      | exact append_ne_at _ _ _ _ 0 (by decide) (by decide) (by decide)
      | exact append_ne_at _ _ _ _ 1 (by decide) (by decide) (by decide)

theorem rowGet_aggFieldsFull_self (data : List Row) (c : String)
    (hv : numberValues data c ≠ []) :
    rowGet (aggFieldsFull data c) ("count_" ++ c)
        = some (Value.num ((numberValues data c).length : ℚ)) ∧
      rowGet (aggFieldsFull data c) ("sum_" ++ c)
        = some (Value.num (numberValues data c).sum) ∧
      rowGet (aggFieldsFull data c) ("avg_" ++ c)
        = some (Value.num ((numberValues data c).sum / ((numberValues data c).length : ℚ))) ∧
      rowGet (aggFieldsFull data c) ("min_" ++ c)
        = some (Value.num (qMin (numberValues data c))) ∧
      rowGet (aggFieldsFull data c) ("max_" ++ c)
        = some (Value.num (qMax (numberValues data c))) := by
  have hne : (numberValues data c).isEmpty = false := by
    simpa [List.isEmpty_iff] using hv
  unfold aggFieldsFull
  simp only [hne, Bool.false_eq_true, if_false]
  have tcount : isAggTag "count_" := Or.inl rfl
  have tsum : isAggTag "sum_" := Or.inr (Or.inl rfl)
  have tavg : isAggTag "avg_" := Or.inr (Or.inr (Or.inl rfl))
  have tmin : isAggTag "min_" := Or.inr (Or.inr (Or.inr (Or.inl rfl)))
  have tmax : isAggTag "max_" := Or.inr (Or.inr (Or.inr (Or.inr rfl)))
  refine ⟨?_, ?_, ?_, ?_, ?_⟩
  · rw [rowGet_cons_self]
  · rw [rowGet_cons_ne _ _ _ _ (cross_tag_ne _ _ c tcount tsum (by decide)),
      rowGet_cons_self]
  · rw [rowGet_cons_ne _ _ _ _ (cross_tag_ne _ _ c tcount tavg (by decide)),
      rowGet_cons_ne _ _ _ _ (cross_tag_ne _ _ c tsum tavg (by decide)),
      rowGet_cons_self]
  · rw [rowGet_cons_ne _ _ _ _ (cross_tag_ne _ _ c tcount tmin (by decide)),
      rowGet_cons_ne _ _ _ _ (cross_tag_ne _ _ c tsum tmin (by decide)),
      rowGet_cons_ne _ _ _ _ (cross_tag_ne _ _ c tavg tmin (by decide)),
      rowGet_cons_self]
  · rw [rowGet_cons_ne _ _ _ _ (cross_tag_ne _ _ c tcount tmax (by decide)),
      rowGet_cons_ne _ _ _ _ (cross_tag_ne _ _ c tsum tmax (by decide)),
      rowGet_cons_ne _ _ _ _ (cross_tag_ne _ _ c tavg tmax (by decide)),
      rowGet_cons_ne _ _ _ _ (cross_tag_ne _ _ c tmin tmax (by decide)),
      rowGet_cons_self]

theorem rowGet_flatten_agg (data : List Row) (cols : List String) (c T : String)
    (hT : isAggTag T) (hc : c ∈ cols) :
    rowGet ((cols.map (aggFieldsFull data)).flatten) (T ++ c)
      = rowGet (aggFieldsFull data c) (T ++ c) := by
  induction cols with
  | nil => cases hc
  | cons c' cols' ih =>
    rw [List.map_cons, List.flatten_cons, rowGet_append]
    by_cases hcc : c' = c
    · subst hcc
      cases hfind : rowGet (aggFieldsFull data c') (T ++ c') with
      | some v => simp [hfind]
      | none =>
        simp only [hfind, Option.none_or]
        by_cases hmem : c' ∈ cols'
        · exact (ih hmem).trans hfind
        · rw [← hfind]
          have : ∀ cs : List String, c' ∉ cs →
              rowGet ((cs.map (aggFieldsFull data)).flatten) (T ++ c') = none := by
            intro cs
            induction cs with
            | nil => intro _; rfl
            | cons d ds ihd =>
              intro hnot
              rw [List.map_cons, List.flatten_cons, rowGet_append,
                rowGet_aggFieldsFull_skip data d c' (fun h => hnot (h ▸ List.mem_cons_self d ds)) T hT,
                Option.none_or]
              exact ihd (fun h => hnot (List.mem_cons_of_mem d h))
          rw [this cols' hmem, hfind]
    · rw [rowGet_aggFieldsFull_skip data c' c hcc T hT, Option.none_or]
      exact ih ((List.mem_cons.mp hc).resolve_left (fun h => hcc h.symm))

theorem rowGet_flatten_agg_absent (data : List Row) (cols : List String) (c T : String)
    (hT : isAggTag T) (hc : c ∉ cols) :
    rowGet ((cols.map (aggFieldsFull data)).flatten) (T ++ c) = none := by
  induction cols with
  | nil => rfl
  | cons c' cols' ih =>
    rw [List.map_cons, List.flatten_cons, rowGet_append,
      rowGet_aggFieldsFull_skip data c' c (fun h => hc (h ▸ List.mem_cons_self c' cols')) T hT,
      Option.none_or]
    exact ih (fun h => hc (List.mem_cons_of_mem c' h))

theorem numberValues_ne_nil_of_numeric (data : List Row) (c : String)
    (h : c ∈ getNumericColumns data) : numberValues data c ≠ [] := by
  cases data with
  | nil => cases h
  | cons r0 rest =>
    unfold getNumericColumns at h
    rw [List.mem_filter] at h
    obtain ⟨-, hany⟩ := h
    rw [List.any_eq_true] at hany
    obtain ⟨row, hrow, hnum⟩ := hany
    have hrowmem : row ∈ r0 :: rest := (List.take_sublist 10 (r0 :: rest)).mem hrow
    unfold isNumberVal at hnum
    cases hval : rowGet row c with
    | none => rw [hval] at hnum; cases hnum
    | some v =>
      cases v with
      | num q =>
        intro hnil
        have : q ∈ numberValues (r0 :: rest) c := by
          rw [numberValues, List.mem_filterMap]
          exact ⟨row, hrowmem, by rw [hval]⟩
        rw [hnil] at this
        cases this
      | str s => rw [hval] at hnum; cases hnum
      | boolV b => rw [hval] at hnum; cases hnum
      | null => rw [hval] at hnum; cases hnum

/-- C3 (amended): AGGREGATE emits exactly one result row; for every column
classified Numeric (such a column always has at least one number-typed
value) the row holds count, sum, avg, min and max of the column's
number-typed values — string values that would parse as numbers are not
counted — and every other column contributes no fields at all. -/
theorem aggregate_single_row_fields (data : List Row) :
    (executeAggregateQuery data).length = 1 ∧
      (∀ c ∈ getNumericColumns data,
        rowGet ((executeAggregateQuery data).headD []) ("count_" ++ c)
            = some (Value.num ((numberValues data c).length : ℚ)) ∧
          rowGet ((executeAggregateQuery data).headD []) ("sum_" ++ c)
            = some (Value.num (numberValues data c).sum) ∧
          rowGet ((executeAggregateQuery data).headD []) ("avg_" ++ c)
            = some (Value.num
                ((numberValues data c).sum / ((numberValues data c).length : ℚ))) ∧
          rowGet ((executeAggregateQuery data).headD []) ("min_" ++ c)
            = some (Value.num (qMin (numberValues data c))) ∧
          rowGet ((executeAggregateQuery data).headD []) ("max_" ++ c)
            = some (Value.num (qMax (numberValues data c)))) ∧
      (∀ c, c ∉ getNumericColumns data →
        rowGet ((executeAggregateQuery data).headD []) ("count_" ++ c) = none) := by
  have hrow : (executeAggregateQuery data).headD []
      = ((getNumericColumns data).map (aggFieldsFull data)).flatten := rfl
  refine ⟨rfl, ?_, ?_⟩
  · intro c hc
    have hv := numberValues_ne_nil_of_numeric data c hc
    obtain ⟨h1, h2, h3, h4, h5⟩ := rowGet_aggFieldsFull_self data c hv
    rw [hrow]
    exact ⟨(rowGet_flatten_agg data _ c "count_" (Or.inl rfl) hc).trans h1,
      (rowGet_flatten_agg data _ c "sum_" (Or.inr (Or.inl rfl)) hc).trans h2,
      (rowGet_flatten_agg data _ c "avg_" (Or.inr (Or.inr (Or.inl rfl))) hc).trans h3,
      (rowGet_flatten_agg data _ c "min_" (Or.inr (Or.inr (Or.inr (Or.inl rfl)))) hc).trans h4,
      (rowGet_flatten_agg data _ c "max_" (Or.inr (Or.inr (Or.inr (Or.inr rfl)))) hc).trans h5⟩
  · intro c hc
    rw [hrow]
    exact rowGet_flatten_agg_absent data _ c "count_" (Or.inl rfl) hc

/-- C3 witness: AGGREGATE over two fully numeric rows, queried at column
x. -/
theorem aggregate_single_row_fields_witness :
    "x" ∈ getNumericColumns [[("x", Value.num 1), ("y", Value.num 2)],
        [("x", Value.num 3), ("y", Value.num 4)]] ∧
      rowGet ((executeAggregateQuery [[("x", Value.num 1), ("y", Value.num 2)],
          [("x", Value.num 3), ("y", Value.num 4)]]).headD []) ("count_" ++ "x")
        = some (Value.num ((numberValues [[("x", Value.num 1), ("y", Value.num 2)],
            [("x", Value.num 3), ("y", Value.num 4)]] "x").length : ℚ)) :=
  ⟨by decide,
    ((aggregate_single_row_fields [[("x", Value.num 1), ("y", Value.num 2)],
        [("x", Value.num 3), ("y", Value.num 4)]]).2.1 "x" (by decide)).1⟩

/-- C3 counterexample: over [(x, 3), (x, "5")] both values parse as finite
numbers, yet the emitted count is 1 and the sum 3 — the string "5" is not
aggregated. -/
theorem aggregate_counterexample :
    executeAggregateQuery [[("x", Value.num 3)], [("x", Value.str "5")]]
        = [[("count_x", Value.num 1), ("sum_x", Value.num 3), ("avg_x", Value.num 3),
            ("min_x", Value.num 3), ("max_x", Value.num 3)]] ∧
      ([[("x", Value.num 3)], [("x", Value.str "5")]].filterMap
          (fun r => parseFloatVal (rowGet r "x"))).length = 2 := by
  decide

/-- First-seen deduplication: keep each key's first occurrence, tracking
already-seen keys. -/
def dedupFirstAux (seen : List Value) : List Value → List Value
  | [] => []
  | k :: ks => if k ∈ seen then dedupFirstAux seen ks else k :: dedupFirstAux (k :: seen) ks

/-- The distinct keys of a list in first-seen order. -/
def dedupFirst (ks : List Value) : List Value :=
  dedupFirstAux [] ks

theorem insertGrouped_keys (l : List (Value × List Row)) (k : Value) (r : Row) :
    (insertGrouped l k r).map Prod.fst =
      if k ∈ l.map Prod.fst then l.map Prod.fst else l.map Prod.fst ++ [k] := by
  induction l with
  | nil => simp [insertGrouped]
  | cons p rest ih =>
    obtain ⟨k0, rs⟩ := p
    simp only [insertGrouped]
    by_cases h : k0 = k
    · subst h
      simp
    · rw [if_neg h]
      simp only [List.map_cons]
      rw [ih]
      by_cases h2 : k ∈ rest.map Prod.fst
      · rw [if_pos h2, if_pos (List.mem_cons_of_mem _ h2)]
      · rw [if_neg h2, if_neg ?hnot, List.cons_append]
        case hnot =>
          intro hmem
          rcases List.mem_cons.mp hmem with he | he
          · exact h he.symm
          · exact h2 he

theorem dedupFirstAux_congr (ks : List Value) (s₁ s₂ : List Value)
    (h : ∀ a, a ∈ s₁ ↔ a ∈ s₂) : dedupFirstAux s₁ ks = dedupFirstAux s₂ ks := by
  induction ks generalizing s₁ s₂ with
  | nil => rfl
  | cons k ks ih =>
    simp only [dedupFirstAux]
    by_cases hk : k ∈ s₁
    · rw [if_pos hk, if_pos ((h k).mp hk)]
      exact ih _ _ h
    · rw [if_neg hk, if_neg (fun hx => hk ((h k).mpr hx))]
      congr 1
      apply ih
      intro a
      simp only [List.mem_cons]
      rw [h a]

theorem groupPairs_keys_aux (g : String) (rest : List Row) (acc : List (Value × List Row)) :
    (rest.foldl (fun acc row => insertGrouped acc (jsGroupKey (rowGet row g)) row) acc).map
        Prod.fst
      = acc.map Prod.fst ++
          dedupFirstAux (acc.map Prod.fst) (rest.map (fun r => jsGroupKey (rowGet r g))) := by
  induction rest generalizing acc with
  | nil => simp [dedupFirstAux]
  | cons row rest ih =>
    simp only [List.foldl_cons, List.map_cons, dedupFirstAux]
    by_cases hk : jsGroupKey (rowGet row g) ∈ acc.map Prod.fst
    · rw [if_pos hk, ih, insertGrouped_keys, if_pos hk]
    · rw [if_neg hk, ih, insertGrouped_keys, if_neg hk]
      rw [List.append_assoc, List.singleton_append]
      congr 1
      congr 1
      apply dedupFirstAux_congr
      intro a
      simp only [List.mem_append, List.mem_singleton, List.mem_cons]
      tauto

theorem mem_dedupFirstAux (ks : List Value) (seen : List Value) (a : Value) :
    a ∈ dedupFirstAux seen ks ↔ a ∈ ks ∧ a ∉ seen := by
  induction ks generalizing seen with
  | nil => simp [dedupFirstAux]
  | cons k ks ih =>
    simp only [dedupFirstAux]
    by_cases hk : k ∈ seen
    · rw [if_pos hk, ih]
      simp only [List.mem_cons]
      constructor
      · rintro ⟨h1, h2⟩
        exact ⟨Or.inr h1, h2⟩
      · rintro ⟨rfl | h1, h2⟩
        · exact absurd hk h2
        · exact ⟨h1, h2⟩
    · rw [if_neg hk]
      simp only [List.mem_cons, ih, List.mem_cons]
      constructor
      · rintro (rfl | ⟨h1, h2⟩)
        · exact ⟨Or.inl rfl, hk⟩
        · exact ⟨Or.inr h1, fun hs => h2 (Or.inr hs)⟩
      · rintro ⟨rfl | h1, h2⟩
        · exact Or.inl rfl
        · by_cases hak : a = k
          · exact Or.inl hak
          · exact Or.inr ⟨h1, fun hs => hs.elim hak h2⟩

theorem nodup_dedupFirstAux (ks : List Value) (seen : List Value) :
    (dedupFirstAux seen ks).Nodup := by
  induction ks generalizing seen with
  | nil => simp [dedupFirstAux]
  | cons k ks ih =>
    simp only [dedupFirstAux]
    by_cases hk : k ∈ seen
    · rw [if_pos hk]
      exact ih seen
    · rw [if_neg hk, List.nodup_cons]
      refine ⟨?_, ih _⟩
      rw [mem_dedupFirstAux]
      rintro ⟨-, h2⟩
      exact h2 (List.mem_cons_self k seen)

theorem dedupFirst_length (ks : List Value) : (dedupFirst ks).length = ks.dedup.length := by
  have hperm : (dedupFirst ks).Perm ks.dedup := by
    unfold dedupFirst
    rw [List.perm_ext_iff_of_nodup (nodup_dedupFirstAux ks []) (List.nodup_dedup ks)]
    intro a
    rw [mem_dedupFirstAux, List.mem_dedup]
    simp
  exact hperm.length_eq

/-- Association lookup in the grouping Map: a key's bucket, or []. -/
def lookupG (l : List (Value × List Row)) (k : Value) : List Row :=
  ((l.find? (fun p => p.1 = k)).map Prod.snd).getD []

theorem lookupG_cons_self (k : Value) (rs : List Row) (l : List (Value × List Row)) :
    lookupG ((k, rs) :: l) k = rs := by
  simp [lookupG]

theorem lookupG_cons_ne (k0 k' : Value) (rs : List Row) (l : List (Value × List Row))
    (h : k0 ≠ k') : lookupG ((k0, rs) :: l) k' = lookupG l k' := by
  simp [lookupG, List.find?_cons_of_neg, h]

theorem lookupG_insertGrouped (l : List (Value × List Row)) (k : Value) (r : Row)
    (k' : Value) :
    lookupG (insertGrouped l k r) k' =
      if k' = k then lookupG l k ++ [r] else lookupG l k' := by
  induction l with
  | nil =>
    simp only [insertGrouped]
    by_cases h : k' = k
    · subst h
      rw [lookupG_cons_self, if_pos rfl]
      rfl
    · rw [lookupG_cons_ne _ _ _ _ (fun he => h he.symm), if_neg h]
  | cons p rest ih =>
    obtain ⟨k0, rs⟩ := p
    simp only [insertGrouped]
    by_cases h0 : k0 = k
    · subst h0
      rw [if_pos rfl]
      by_cases h' : k' = k0
      · subst h'
        rw [if_pos rfl, lookupG_cons_self, lookupG_cons_self]
      · rw [if_neg h', lookupG_cons_ne _ _ _ _ (fun he => h' he.symm),
          lookupG_cons_ne _ _ _ _ (fun he => h' he.symm)]
    · rw [if_neg h0]
      by_cases h' : k' = k0
      · subst h'
        rw [lookupG_cons_self, if_neg h0, lookupG_cons_self]
      · rw [lookupG_cons_ne _ _ _ _ (fun he => h' he.symm), ih]
        by_cases hk : k' = k
        · rw [if_pos hk, if_pos hk, lookupG_cons_ne _ _ _ _ (fun he => h0 he)]
        · rw [if_neg hk, if_neg hk, lookupG_cons_ne _ _ _ _ (fun he => h' he.symm)]

theorem lookupG_fold (g : String) (rest : List Row) (acc : List (Value × List Row))
    (k : Value) :
    lookupG (rest.foldl (fun acc row => insertGrouped acc (jsGroupKey (rowGet row g)) row) acc) k
      = lookupG acc k ++ rest.filter (fun r => jsGroupKey (rowGet r g) = k) := by
  induction rest generalizing acc with
  | nil => simp
  | cons row rest ih =>
    simp only [List.foldl_cons]
    rw [ih, lookupG_insertGrouped]
    by_cases hk : k = jsGroupKey (rowGet row g)
    · rw [if_pos hk, ← hk,
        List.filter_cons_of_pos (by simp only [decide_eq_true_eq]; exact hk.symm),
        List.append_assoc]
      rfl
    · rw [if_neg hk,
        List.filter_cons_of_neg (by simp only [decide_eq_true_eq]; exact fun he => hk he.symm)]

theorem find?_eq_of_nodup_keys (l : List (Value × List Row)) (p : Value × List Row)
    (hmem : p ∈ l) (hnodup : (l.map Prod.fst).Nodup) :
    l.find? (fun q => q.1 = p.1) = some p := by
  induction l with
  | nil => cases hmem
  | cons q rest ih =>
    rw [List.map_cons, List.nodup_cons] at hnodup
    rcases List.mem_cons.mp hmem with rfl | hmem'
    · exact List.find?_cons_of_pos _ (by simp)
    · have hne : q.1 ≠ p.1 := by
        intro he
        exact hnodup.1 (he ▸ List.mem_map.mpr ⟨p, hmem', rfl⟩)
      rw [List.find?_cons_of_neg _ (by simpa using hne)]
      exact ih hmem' hnodup.2

theorem groupPairs_keys (g : String) (data : List Row) :
    (groupPairs g data).map Prod.fst
      = dedupFirst (data.map (fun r => jsGroupKey (rowGet r g))) := by
  have h := groupPairs_keys_aux g data []
  simpa [groupPairs, dedupFirst] using h

theorem groupPairs_keys_nodup (g : String) (data : List Row) :
    ((groupPairs g data).map Prod.fst).Nodup := by
  rw [groupPairs_keys]
  unfold dedupFirst
  exact nodup_dedupFirstAux _ _

/-- Each bucket of the GROUP BY Map holds exactly the table's rows whose
coerced group key is the bucket's key, in table order. -/
theorem groupPairs_snd (g : String) (data : List Row) (p : Value × List Row)
    (hp : p ∈ groupPairs g data) :
    p.2 = data.filter (fun r => jsGroupKey (rowGet r g) = p.1) := by
  have hfind : (groupPairs g data).find? (fun q => q.1 = p.1) = some p :=
    find?_eq_of_nodup_keys _ p hp (groupPairs_keys_nodup g data)
  have hlook : lookupG (groupPairs g data) p.1 = p.2 := by
    simp [lookupG, hfind]
  have hfold : lookupG (groupPairs g data) p.1
      = lookupG [] p.1 ++ data.filter (fun r => jsGroupKey (rowGet r g) = p.1) := by
    unfold groupPairs
    exact lookupG_fold g data [] p.1
  rw [hfold] at hlook
  have hnil : lookupG [] p.1 = [] := rfl
  rw [hnil, List.nil_append] at hlook
  exact hlook.symm

/-- C6 (amended): GROUP_BY emits exactly one row per distinct group key of
the table — keys are the raw (falsy-coerced) values compared by strict
equality, not their stringifications, so the number 5 and the string "5"
form distinct groups — in first-seen order.  Each row carries its group
key under the group-column name, followed by the aggregate fields of every
column classified numeric on that group's own rows (the table's rows with
that key), and those fields are exactly count_c, sum_c and avg_c of the
group's number-typed values. -/
theorem groupby_first_seen_rows (g : String) (data : List Row) :
    (executeGroupByCore g data).map (fun r => rowGet r g)
        = (dedupFirst (data.map (fun r => jsGroupKey (rowGet r g)))).map some ∧
      (executeGroupByCore g data).length
        = (data.map (fun r => jsGroupKey (rowGet r g))).dedup.length ∧
      (∀ row ∈ executeGroupByCore g data, ∃ k : Value,
        rowGet row g = some k ∧
          row = (g, k) ::
            ((getNumericColumns (data.filter (fun r => jsGroupKey (rowGet r g) = k))).map
              (aggFieldsGroup
                (data.filter (fun r => jsGroupKey (rowGet r g) = k)))).flatten) ∧
      (∀ (rows : List Row), ∀ c ∈ getNumericColumns rows,
        aggFieldsGroup rows c
          = [("count_" ++ c, Value.num ((numberValues rows c).length : ℚ)),
             ("sum_" ++ c, Value.num (numberValues rows c).sum),
             ("avg_" ++ c,
               Value.num ((numberValues rows c).sum / ((numberValues rows c).length : ℚ)))]) := by
  have hkeys : (groupPairs g data).map Prod.fst
      = dedupFirst (data.map (fun r => jsGroupKey (rowGet r g))) := groupPairs_keys g data
  refine ⟨?_, ?_, ?_, ?_⟩
  · unfold executeGroupByCore
    rw [List.map_map]
    have h1 : ((fun r => rowGet r g) ∘ fun p : Value × List Row =>
        (g, p.1) :: ((getNumericColumns p.2).map (aggFieldsGroup p.2)).flatten)
        = fun p : Value × List Row => some p.1 := by
      funext p
      exact rowGet_cons_self g p.1 _
    rw [h1, ← hkeys, ← List.comp_map]
    rfl
  · unfold executeGroupByCore
    rw [List.length_map]
    have h2 : (groupPairs g data).length = ((groupPairs g data).map Prod.fst).length :=
      (List.length_map _ _).symm
    rw [h2, hkeys, dedupFirst_length]
  · intro row hrow
    unfold executeGroupByCore at hrow
    rw [List.mem_map] at hrow
    obtain ⟨p, hp, rfl⟩ := hrow
    refine ⟨p.1, rowGet_cons_self _ _ _, ?_⟩
    rw [← groupPairs_snd g data p hp]
  · intro rows c hc
    have hv := numberValues_ne_nil_of_numeric rows c hc
    have hne : (numberValues rows c).isEmpty = false := by
      simpa [List.isEmpty_iff] using hv
    unfold aggFieldsGroup
    simp [hne]

/-- C6 witness: the first result row of grouping [(g, 5), (g, "5")] by g
carries the key 5 and exactly the aggregate fields of its own group. -/
theorem groupby_first_seen_rows_witness :
    [("g", Value.num 5), ("count_g", Value.num 1), ("sum_g", Value.num 5),
        ("avg_g", Value.num 5)] ∈
      executeGroupByCore "g" [[("g", Value.num 5)], [("g", Value.str "5")]] ∧
    (∃ k : Value,
      rowGet [("g", Value.num 5), ("count_g", Value.num 1), ("sum_g", Value.num 5),
          ("avg_g", Value.num 5)] "g" = some k ∧
        [("g", Value.num 5), ("count_g", Value.num 1), ("sum_g", Value.num 5),
            ("avg_g", Value.num 5)]
          = ("g", k) ::
            ((getNumericColumns ([[("g", Value.num 5)], [("g", Value.str "5")]].filter
                (fun r => jsGroupKey (rowGet r "g") = k))).map
              (aggFieldsGroup ([[("g", Value.num 5)], [("g", Value.str "5")]].filter
                (fun r => jsGroupKey (rowGet r "g") = k)))).flatten) :=
  ⟨by decide,
    (groupby_first_seen_rows "g" [[("g", Value.num 5)], [("g", Value.str "5")]]).2.2.1
      [("g", Value.num 5), ("count_g", Value.num 1), ("sum_g", Value.num 5),
        ("avg_g", Value.num 5)] (by decide)⟩

/-- C6 counterexample: grouping [(g, 5), (g, "5")] by g produces two result
rows although both keys stringify to "5" — the claim's count of distinct
stringified values is 1. -/
theorem groupby_stringified_counterexample :
    (executeGroupByQuery "GROUP BY g" [[("g", Value.num 5)], [("g", Value.str "5")]] ["g"]).1.length
        = 2 ∧
      (executeGroupByQuery "GROUP BY g" [[("g", Value.num 5)], [("g", Value.str "5")]]
          ["g"]).2 = QueryType.GROUP_BY ∧
      ([[("g", Value.num 5)], [("g", Value.str "5")]].map
          (fun r => Value.toStr ((rowGet r "g").getD (Value.str "Unknown")))).dedup.length
        = 1 := by
  decide

theorem foldl_min_le (l : List ℚ) (a : ℚ) : l.foldl min a ≤ a := by
  induction l generalizing a with
  | nil => simp
  | cons x xs ih =>
    simp only [List.foldl_cons]
    exact le_trans (ih (min a x)) (min_le_left a x)

theorem foldl_min_le_mem (l : List ℚ) (a v : ℚ) (h : v ∈ l) : l.foldl min a ≤ v := by
  induction l generalizing a with
  | nil => cases h
  | cons x xs ih =>
    simp only [List.foldl_cons]
    rcases List.mem_cons.mp h with rfl | h
    · exact le_trans (foldl_min_le xs (min a v)) (min_le_right a v)
    · exact ih (min a x) h

theorem qMin_le_mem (l : List ℚ) (v : ℚ) (h : v ∈ l) : qMin l ≤ v := by
  cases l with
  | nil => cases h
  | cons x xs =>
    rcases List.mem_cons.mp h with rfl | h
    · exact foldl_min_le xs v
    · exact foldl_min_le_mem xs x v h

theorem le_foldl_max (l : List ℚ) (a : ℚ) : a ≤ l.foldl max a := by
  induction l generalizing a with
  | nil => simp
  | cons x xs ih =>
    simp only [List.foldl_cons]
    exact le_trans (le_max_left a x) (ih (max a x))

theorem mem_le_foldl_max (l : List ℚ) (a v : ℚ) (h : v ∈ l) : v ≤ l.foldl max a := by
  induction l generalizing a with
  | nil => cases h
  | cons x xs ih =>
    simp only [List.foldl_cons]
    rcases List.mem_cons.mp h with rfl | h
    · exact le_trans (le_max_right a v) (le_foldl_max xs (max a v))
    · exact ih (max a x) h

theorem mem_le_qMax (l : List ℚ) (v : ℚ) (h : v ∈ l) : v ≤ qMax l := by
  cases l with
  | nil => cases h
  | cons x xs =>
    rcases List.mem_cons.mp h with rfl | h
    · exact le_foldl_max xs v
    · exact mem_le_foldl_max xs x v h

theorem ceilSqrtAux_ge (n f k : ℕ) : k ≤ ceilSqrtAux n f k := by
  induction f generalizing k with
  | zero => exact le_refl k
  | succ f ih =>
    simp only [ceilSqrtAux]
    by_cases h : n ≤ k * k
    · rw [if_pos h]
    · rw [if_neg h]
      exact le_trans (Nat.le_succ k) (ih (k + 1))

theorem ceilSqrt_pos (n : ℕ) (h : 1 ≤ n) : 1 ≤ ceilSqrt n := by
  unfold ceilSqrt
  cases n with
  | zero => omega
  | succ m =>
    simp only [ceilSqrtAux]
    rw [if_neg (by omega)]
    exact ceilSqrtAux_ge (m + 1) m 1

theorem list_sum_map_add {α : Type} (l : List α) (g h : α → ℕ) :
    (l.map (fun i => g i + h i)).sum = (l.map g).sum + (l.map h).sum := by
  induction l with
  | nil => rfl
  | cons x xs ih =>
    simp only [List.map_cons, List.sum_cons, ih]
    omega

theorem sum_ite_eq_range (bc k : ℕ) (hk : k < bc) :
    ((List.range bc).map (fun i => if i = k then 1 else 0)).sum = 1 := by
  induction bc with
  | zero => omega
  | succ n ih =>
    rw [List.range_succ, List.map_append, List.sum_append]
    by_cases hkn : k = n
    · subst hkn
      have h1 : ((List.range k).map (fun i => if i = k then 1 else 0)).sum = 0 := by
        apply List.sum_eq_zero
        intro x hx
        rw [List.mem_map] at hx
        obtain ⟨i, hi, rfl⟩ := hx
        rw [if_neg (Nat.ne_of_lt (List.mem_range.mp hi))]
      rw [h1]
      simp
    · have hk' : k < n := by omega
      rw [ih hk']
      simp [Ne.symm hkn, hkn]

theorem sum_countP_range_nat (l : List ℚ) (bc : ℕ) (f : ℚ → Option ℤ)
    (h : ∀ v ∈ l, ∃ k : ℕ, f v = some (k : ℤ) ∧ k < bc) :
    ((List.range bc).map
        (fun (i : ℕ) => l.countP (fun v => decide (f v = some (i : ℤ))))).sum
      = l.length := by
  induction l with
  | nil => simp
  | cons v vs ih =>
    obtain ⟨k, hk, hkbc⟩ := h v (List.mem_cons_self v vs)
    have hrest := ih (fun w hw => h w (List.mem_cons_of_mem v hw))
    simp only [List.countP_cons]
    rw [list_sum_map_add (List.range bc)
      (fun (i : ℕ) => vs.countP (fun w => decide (f w = some (i : ℤ))))
      (fun (i : ℕ) => if decide (f v = some (i : ℤ)) = true then 1 else 0)]
    rw [hrest]
    have hind : ((List.range bc).map
        (fun (i : ℕ) => if decide (f v = some (i : ℤ)) = true then 1 else 0)).sum = 1 := by
      have hcong : ((List.range bc).map
          (fun (i : ℕ) => if decide (f v = some (i : ℤ)) = true then 1 else 0))
          = ((List.range bc).map (fun (i : ℕ) => if i = k then 1 else 0)) := by
        apply List.map_congr_left
        intro i hi
        by_cases hik : i = k
        · subst hik
          rw [if_pos (by rw [hk]; exact decide_eq_true rfl), if_pos rfl]
        · rw [if_neg ?_, if_neg hik]
          rw [decide_eq_true_eq, hk]
          intro hsome
          apply hik
          have hcast : (k : ℤ) = (i : ℤ) := Option.some.inj hsome
          exact_mod_cast hcast.symm
      rw [hcong]
      exact sum_ite_eq_range bc k hkbc
    rw [hind]
    simp

theorem binIndex_range (v minV maxV : ℚ) (bc : ℕ) (hbc : 1 ≤ bc) (hlt : minV < maxV)
    (hvmin : minV ≤ v) :
    ∃ k : ℕ, binIndex v minV ((maxV - minV) / (bc : ℚ)) bc = some (k : ℤ) ∧ k < bc := by
  have hbcq : (0 : ℚ) < (bc : ℚ) := by exact_mod_cast hbc
  have hpos : 0 < (maxV - minV) / (bc : ℚ) := div_pos (by linarith) hbcq
  have h0 : 0 ≤ ⌊(v - minV) / ((maxV - minV) / (bc : ℚ))⌋ :=
    Int.floor_nonneg.mpr (div_nonneg (by linarith) hpos.le)
  have hmin0 : 0 ≤ min ⌊(v - minV) / ((maxV - minV) / (bc : ℚ))⌋ ((bc : ℤ) - 1) :=
    le_min h0 (by omega)
  refine ⟨(min ⌊(v - minV) / ((maxV - minV) / (bc : ℚ))⌋ ((bc : ℤ) - 1)).toNat, ?_, ?_⟩
  · unfold binIndex
    rw [if_neg (ne_of_gt hpos)]
    rw [Int.toNat_of_nonneg hmin0]
  · have hle : min ⌊(v - minV) / ((maxV - minV) / (bc : ℚ))⌋ ((bc : ℤ) - 1) ≤ (bc : ℤ) - 1 :=
      min_le_right _ _
    omega

/-- C1 (amended): the histogram's bin counts sum to the number of
parseable x values whenever at least two distinct values parse
(max ≠ min); when all parseable values are equal, the JavaScript bin
computation divides 0 by the zero bin width, the NaN index touches no
bin, and every emitted bin reports 0 — the clamp never applies; when no
value parses the series is empty. -/
theorem histogram_counts (data : List Row) (xAxis : String) :
    (histValues data xAxis = [] → processHistogramData data xAxis = []) ∧
      (qMin (histValues data xAxis) ≠ qMax (histValues data xAxis) →
        ((processHistogramData data xAxis).map Prod.snd).sum
          = ((histValues data xAxis).length : ℚ)) ∧
      (histValues data xAxis ≠ [] →
        qMin (histValues data xAxis) = qMax (histValues data xAxis) →
        ∀ p ∈ processHistogramData data xAxis, p.2 = 0) := by
  refine ⟨?_, ?_, ?_⟩
  · intro h
    unfold processHistogramData
    simp [h]
  · intro hne
    have hnonnil : histValues data xAxis ≠ [] := by
      intro h
      rw [h] at hne
      exact hne rfl
    have hEmpty : ¬ ((histValues data xAxis).isEmpty = true) := by
      rw [List.isEmpty_iff]
      exact hnonnil
    have hminmax : qMin (histValues data xAxis) < qMax (histValues data xAxis) := by
      obtain ⟨v, hv⟩ := List.exists_mem_of_ne_nil _ hnonnil
      exact lt_of_le_of_ne (le_trans (qMin_le_mem _ v hv) (mem_le_qMax _ v hv)) hne
    have hlen : 1 ≤ (histValues data xAxis).length := by
      rw [Nat.one_le_iff_ne_zero, Ne, List.length_eq_zero]
      exact hnonnil
    have hbc : 1 ≤ Nat.min 10 (ceilSqrt (histValues data xAxis).length) :=
      le_min (by omega) (ceilSqrt_pos _ hlen)
    unfold processHistogramData
    rw [if_neg hEmpty, List.map_map]
    have hcomp : (Prod.snd ∘ fun (i : ℕ) =>
        ((qMin (histValues data xAxis) + ((i : ℚ) + 1/2) *
            ((qMax (histValues data xAxis) - qMin (histValues data xAxis)) /
              ((Nat.min 10 (ceilSqrt (histValues data xAxis).length) : ℕ) : ℚ))),
          (((histValues data xAxis).countP (fun v =>
            decide (binIndex v (qMin (histValues data xAxis))
              ((qMax (histValues data xAxis) - qMin (histValues data xAxis)) /
                ((Nat.min 10 (ceilSqrt (histValues data xAxis).length) : ℕ) : ℚ))
              (Nat.min 10 (ceilSqrt (histValues data xAxis).length)) = some (i : ℤ)))) : ℚ)))
        = fun (i : ℕ) =>
          (((histValues data xAxis).countP (fun v =>
            decide (binIndex v (qMin (histValues data xAxis))
              ((qMax (histValues data xAxis) - qMin (histValues data xAxis)) /
                ((Nat.min 10 (ceilSqrt (histValues data xAxis).length) : ℕ) : ℚ))
              (Nat.min 10 (ceilSqrt (histValues data xAxis).length)) = some (i : ℤ)))) : ℚ) :=
      rfl
    rw [hcomp]
    have hcast : (List.range (Nat.min 10 (ceilSqrt (histValues data xAxis).length))).map
        (fun (i : ℕ) =>
          (((histValues data xAxis).countP (fun v =>
            decide (binIndex v (qMin (histValues data xAxis))
              ((qMax (histValues data xAxis) - qMin (histValues data xAxis)) /
                ((Nat.min 10 (ceilSqrt (histValues data xAxis).length) : ℕ) : ℚ))
              (Nat.min 10 (ceilSqrt (histValues data xAxis).length)) = some (i : ℤ)))) : ℚ))
        = ((List.range (Nat.min 10 (ceilSqrt (histValues data xAxis).length))).map
          (fun (i : ℕ) =>
            ((histValues data xAxis).countP (fun v =>
              decide (binIndex v (qMin (histValues data xAxis))
                ((qMax (histValues data xAxis) - qMin (histValues data xAxis)) /
                  ((Nat.min 10 (ceilSqrt (histValues data xAxis).length) : ℕ) : ℚ))
                (Nat.min 10 (ceilSqrt (histValues data xAxis).length)) = some (i : ℤ)))))).map
          (fun (n : ℕ) => (n : ℚ)) := by
      rw [List.map_map]
      rfl
    rw [hcast, ← Nat.cast_list_sum]
    congr 1
    apply sum_countP_range_nat
    intro v hv
    exact binIndex_range v _ _ _ hbc hminmax (qMin_le_mem _ v hv)
  · intro hnonnil heq p hp
    have hEmpty : ¬ ((histValues data xAxis).isEmpty = true) := by
      rw [List.isEmpty_iff]
      exact hnonnil
    unfold processHistogramData at hp
    rw [if_neg hEmpty] at hp
    rw [List.mem_map] at hp
    obtain ⟨i, hi, rfl⟩ := hp
    simp only
    rw [Nat.cast_eq_zero, List.countP_eq_zero]
    intro v hv
    have hvmin : v = qMin (histValues data xAxis) :=
      le_antisymm (heq ▸ mem_le_qMax _ v hv) (qMin_le_mem _ v hv)
    have hsize : (qMax (histValues data xAxis) - qMin (histValues data xAxis)) /
        ((Nat.min 10 (ceilSqrt (histValues data xAxis).length) : ℕ) : ℚ) = 0 := by
      rw [← heq, sub_self, zero_div]
    rw [decide_eq_true_eq]
    unfold binIndex
    rw [if_pos hsize, if_pos hvmin]
    intro hcontra
    cases hcontra

/-- C1 witness: the histogram over [1..10] has 4 bins whose counts sum to
10. -/
theorem histogram_counts_witness :
    qMin (histValues [[("x", Value.num 1)], [("x", Value.num 2)], [("x", Value.num 3)],
          [("x", Value.num 4)], [("x", Value.num 5)], [("x", Value.num 6)],
          [("x", Value.num 7)], [("x", Value.num 8)], [("x", Value.num 9)],
          [("x", Value.num 10)]] "x")
        ≠ qMax (histValues [[("x", Value.num 1)], [("x", Value.num 2)], [("x", Value.num 3)],
          [("x", Value.num 4)], [("x", Value.num 5)], [("x", Value.num 6)],
          [("x", Value.num 7)], [("x", Value.num 8)], [("x", Value.num 9)],
          [("x", Value.num 10)]] "x") ∧
      ((processHistogramData [[("x", Value.num 1)], [("x", Value.num 2)], [("x", Value.num 3)],
          [("x", Value.num 4)], [("x", Value.num 5)], [("x", Value.num 6)],
          [("x", Value.num 7)], [("x", Value.num 8)], [("x", Value.num 9)],
          [("x", Value.num 10)]] "x").map Prod.snd).sum
        = ((histValues [[("x", Value.num 1)], [("x", Value.num 2)], [("x", Value.num 3)],
          [("x", Value.num 4)], [("x", Value.num 5)], [("x", Value.num 6)],
          [("x", Value.num 7)], [("x", Value.num 8)], [("x", Value.num 9)],
          [("x", Value.num 10)]] "x").length : ℚ) :=
  ⟨by decide,
    (histogram_counts [[("x", Value.num 1)], [("x", Value.num 2)], [("x", Value.num 3)],
        [("x", Value.num 4)], [("x", Value.num 5)], [("x", Value.num 6)],
        [("x", Value.num 7)], [("x", Value.num 8)], [("x", Value.num 9)],
        [("x", Value.num 10)]] "x").2.1 (by decide)⟩

/-- C1 counterexample: two equal parseable values produce two bins that
both report 0 — no value is counted in any bin, although the claim says
every value falls in bin 0. -/
theorem histogram_degenerate_counterexample :
    ((processHistogramData [[("x", Value.num 1)], [("x", Value.num 1)]] "x").map
        Prod.snd).sum = 0 ∧
      (histValues [[("x", Value.num 1)], [("x", Value.num 1)]] "x").length = 2 ∧
      processHistogramData [[("x", Value.num 1)], [("x", Value.num 1)]] "x"
        = [(1, 0), (1, 0)] := by
  decide
